import Mathlib

/-!
Verification of the jetpack utility library: a shallow embedding of its
error model (`jetpack/errors/__init__.py`), exception-handler registry
(`jetpack/errors/exception_handlers.py`), path/config resolver
(`jetpack/config.py`), logging assembler (`jetpack/log_config.py`) and
response envelopes (`jetpack/responses.py`), together with theorems
settling the specification claims about them.
-/

set_option autoImplicit false

namespace Jetpack

/-! ## Error model (`jetpack/errors/__init__.py`)

`GenericErrors.__init__` stores `_ec`, renders `_message` once at
construction (`f"{ec}: {message}" if ec else message`), stores
`_status_code`, and passes the rendered message to `Exception.__init__`
(kept here as `args_str`, what `str(exc)` later shows).  The property
setters assign the raw fields and never re-render. -/

structure GenericErrors where
  ec_ : Option String
  message_ : String
  status_code_ : Int
  /-- the argument given to `Exception.__init__`, i.e. `str(exc)` -/
  args_str : String
deriving DecidableEq, Repr

/-- Python truthiness of an optional string: `None` and `""` are falsy. -/
def pyTruthy : Option String → Bool
  | none => false
  | some s => !s.isEmpty

/-- `GenericErrors.__init__(message, ec, status_code)`. -/
def GenericErrors.init (message : String) (ec : Option String) (status_code : Int) :
    GenericErrors :=
  let m := match ec with
    | some s => if s.isEmpty then message else s ++ ": " ++ message
    | none => message
  ⟨ec, m, status_code, m⟩

/-- `GenericErrors()` with all defaults from the source. -/
def GenericErrors.initDefault : GenericErrors :=
  GenericErrors.init "An error has occurred. Please contact support." none 500

/-- the `message` property getter (`return self._message`). -/
def GenericErrors.message (e : GenericErrors) : String := e.message_

/-- the `ec` property getter. -/
def GenericErrors.ec (e : GenericErrors) : Option String := e.ec_

/-- the `status_code` property getter. -/
def GenericErrors.status_code (e : GenericErrors) : Int := e.status_code_

/-- reading the `message` property, as a state transformer: the getter
returns the stored field and leaves the instance untouched. -/
def GenericErrors.readMessage (e : GenericErrors) : String × GenericErrors :=
  (e.message_, e)

/-- the `message` property setter (`self._message = value`). -/
def GenericErrors.setMessage (e : GenericErrors) (value : String) : GenericErrors :=
  { e with message_ := value }

/-- the `ec` property setter (`self._ec = value`); it does not touch
`_message`. -/
def GenericErrors.setEc (e : GenericErrors) (value : Option String) : GenericErrors :=
  { e with ec_ := value }

/-- the `status_code` property setter. -/
def GenericErrors.setStatusCode (e : GenericErrors) (value : Int) : GenericErrors :=
  { e with status_code_ := value }

/-- The rendering rule as the specification words it: `message` verbatim
when the code is null or empty, `"<code>: <message>"` otherwise. -/
def specRendered (code : Option String) (message : String) : String :=
  match code with
  | none => message
  | some c => if c = "" then message else c ++ ": " ++ message

/-! ## Handler registry (`jetpack/errors/exception_handlers.py`) -/

/-- Exception types as dictionary keys: the two built-in keys plus
arbitrary caller-declared exception classes, distinguished by an index. -/
inductive ExcKey where
  | requestValidationError
  | exception
  | other (n : Nat)
deriving DecidableEq, Repr

/-- Handler values stored in the table: the two built-in defaults, an
opaque caller-supplied handler (validation override or extra handler,
distinguished by an index), and the handler generated for a key by
`ExceptionHandlers.exception_handler_generator`. -/
inductive HandlerV where
  | requestValidationDefault
  | genericDefault
  | custom (id : Nat)
  | generated (k : ExcKey)
deriving DecidableEq, Repr

/-- Python `dict` single-key assignment: replace in place if the key is
present (insertion order preserved), else append. -/
def dictInsert (d : List (ExcKey × HandlerV)) (k : ExcKey) (v : HandlerV) :
    List (ExcKey × HandlerV) :=
  match d with
  | [] => [(k, v)]
  | (k₀, v₀) :: rest =>
      if k₀ = k then (k, v) :: rest else (k₀, v₀) :: dictInsert rest k v

/-- Python `dict.update(other)`: assign every pair of `other` in order. -/
def dictUpdate (d : List (ExcKey × HandlerV)) (other : List (ExcKey × HandlerV)) :
    List (ExcKey × HandlerV) :=
  other.foldl (fun acc p => dictInsert acc p.1 p.2) d

/-- Python `dict` lookup (`d[k]`), as an option. -/
def dictGet (d : List (ExcKey × HandlerV)) (k : ExcKey) : Option HandlerV :=
  match d with
  | [] => none
  | (k₀, v₀) :: rest => if k₀ = k then some v₀ else dictGet rest k

/-- Value a sequence of dict assignments leaves for key `k`: the last
binding of `k` in the list, if any. -/
def lastBinding (entries : List (ExcKey × HandlerV)) (k : ExcKey) : Option HandlerV :=
  match entries with
  | [] => none
  | (k₀, v₀) :: rest =>
      match lastBinding rest k with
      | some v => some v
      | none => if k₀ = k then some v₀ else none

/-- The handler table assembled by the body of `get_exception_handlers`
(lines 45-55): base map with the validation entry (`custom_validation_handler
or` the default) and the generic `Exception` entry, then
`handlers.update(exception_handlers or {})`, then — only when
`exceptions_list` is truthy — one generated handler per listed type. -/
def assemble_handlers (exceptions_list : Option (List ExcKey))
    (custom_validation_handler : Option HandlerV)
    (exception_handlers : Option (List (ExcKey × HandlerV))) :
    List (ExcKey × HandlerV) :=
  let handlers : List (ExcKey × HandlerV) :=
    [(ExcKey.requestValidationError,
        custom_validation_handler.getD HandlerV.requestValidationDefault),
     (ExcKey.exception, HandlerV.genericDefault)]
  let handlers := dictUpdate handlers (exception_handlers.getD [])
  match exceptions_list with
  | none => handlers
  | some l =>
      if l.isEmpty then handlers
      else l.foldl (fun acc k => dictInsert acc k (HandlerV.generated k)) handlers

/-- `get_exception_handlers` as written: it assembles the table and then
falls off the end of the function body, so it returns `None`. -/
def get_exception_handlers (exceptions_list : Option (List ExcKey))
    (custom_validation_handler : Option HandlerV)
    (exception_handlers : Option (List (ExcKey × HandlerV))) :
    Option (List (ExcKey × HandlerV)) :=
  let _handlers := assemble_handlers exceptions_list custom_validation_handler
    exception_handlers
  none

/-! ### The generated handler (`ExceptionHandlers.exception_handler_generator`) -/

inductive LogSeverity where
  | debug
  | info
  | warning
  | error
  | critical
deriving DecidableEq, Repr

structure LogRecord where
  severity : LogSeverity
  text : String
deriving DecidableEq, Repr

/-- The value returned by a handler: `JSONResponse(status_code=...,
content={"message": ...})`. -/
structure JSONResponse where
  status_code : Int
  content_message : String
deriving DecidableEq, Repr

/-- `str(exc)` for a `GenericErrors` instance: `Exception.__str__` of the
single constructor argument. -/
def strOfExc (e : GenericErrors) : String := e.args_str

/-- `ExceptionHandlers.exception_handler_generator(exception)`: closes over
the exception type (here its `__name__`) and yields a handler that calls
`logger.exception(f"{exception.__name__}: {exc}")` — error severity — and
returns `JSONResponse(status_code=exc.status_code, content={"message":
exc.message})`.  The ignored first argument is the `Request`. -/
def exception_handler_generator (excTypeName : String) :
    Unit → GenericErrors → LogRecord × JSONResponse :=
  fun _ exc =>
    (⟨LogSeverity.error, excTypeName ++ ": " ++ strOfExc exc⟩,
     ⟨exc.status_code, exc.message⟩)

/-! ## Path/config resolver (`jetpack/config.py`)

`_PathConf.path_merger` sets `LOGS_MODULE_PATH` to
`os.path.join(BASE_PATH, "logs", MODULE_NAME.replace("-", "_"))`; pydantic
then coerces the field to `pathlib.Path`, whose string form is the
POSIX-normalised path (repeated slashes collapsed, `.` segments and any
trailing slash dropped). -/

/-- whether a string starts with the POSIX separator (`b.startswith(sep)`). -/
def startsWithSlash (s : String) : Bool :=
  decide (s.data.head? = some '/')

/-- whether a string ends with the POSIX separator (`path.endswith(sep)`). -/
def endsWithSlash (s : String) : Bool :=
  decide (s.data.getLast? = some '/')

/-- `posixpath.join(a, b)` for two components. -/
def posixJoin2 (a b : String) : String :=
  if startsWithSlash b then b
  else if a = "" || endsWithSlash a then a ++ b
  else a ++ "/" ++ b

/-- `posixpath.join(a, b, c)`. -/
def posixJoin3 (a b c : String) : String := posixJoin2 (posixJoin2 a b) c

/-- `module_name.replace("-", "_")`: for the single-character pattern this
is the character-wise map sending every hyphen to an underscore. -/
def pyReplaceDash (s : String) : String :=
  String.mk (s.data.map fun c => if c = '-' then '_' else c)

/-- the string `path_merger` stores into `values["LOGS_MODULE_PATH"]`. -/
def path_merger (base_path module_name : String) : String :=
  posixJoin3 base_path "logs" (pyReplaceDash module_name)

/-- split a character list on `/`, keeping empty words. -/
def splitSlash : List Char → List (List Char)
  | [] => [[]]
  | c :: cs =>
      if c = '/' then [] :: splitSlash cs
      else
        match splitSlash cs with
        | [] => [[c]]
        | w :: ws => (c :: w) :: ws

/-- a path component survives `pathlib` parsing iff it is neither empty
nor a lone dot. -/
def keepComp (w : List Char) : Bool :=
  if w = [] then false else if w = ['.'] then false else true

/-- the root `pathlib.PurePosixPath` keeps: exactly two leading slashes
stay `//`, any other positive number of leading slashes becomes `/`. -/
def rootOf (l : List Char) : List Char :=
  if l.take 3 = ['/', '/', '/'] then ['/']
  else if l.take 2 = ['/', '/'] then ['/', '/']
  else if l.take 1 = ['/'] then ['/']
  else []

/-- `"/".join(comps)`: the components joined by single separators. -/
def joinComps : List (List Char) → List Char
  | [] => []
  | [w] => w
  | w :: ws => w ++ '/' :: joinComps ws

/-- `str(PurePosixPath(s))` on the character level: root plus the kept
components joined by single slashes; the empty path renders as `.`. -/
def normChars (l : List Char) : List Char :=
  if joinComps ((splitSlash l).filter keepComp) = [] then
    (if rootOf l = [] then ['.'] else rootOf l)
  else rootOf l ++ joinComps ((splitSlash l).filter keepComp)

/-- `str(PurePosixPath(s))`. -/
def posixNormalize (s : String) : String := String.mk (normChars s.data)

/-- the final `LOGS_MODULE_PATH` field: the merged string coerced to
`pathlib.Path`, read back as a string. -/
def logsModulePath (base_path module_name : String) : String :=
  posixNormalize (path_merger base_path module_name)

/-! ## Logging assembler (`jetpack/log_config.py`) -/

/-- the `_LogConfig` settings record (defaults as in the source). -/
structure LogConfigS where
  LOG_LEVEL : String := "INFO"
  ENABLE_FILE_LOG : Bool := false
  ENABLE_CONSOLE_LOG : Bool := true
  LOG_ENABLE_TRACEBACK : Bool := false
  DEFER_LOG_MODULES : List String := ["httpx", "pymongo"]
  DEFER_ADDITIONAL_LOGS : List String := []
  DEFER_LOG_LEVEL : String := "INFO"
deriving Repr

/-- one entry of the `handlers` list `read_configuration` builds; the
stream entry carries no `max_bytes`/`back_up_count` keys, hence options. -/
structure HandlerDescriptor where
  type : String
  max_bytes : Option Nat
  back_up_count : Option Nat
  enable : Bool
deriving DecidableEq, Repr

structure LoggingConfig where
  name : String
  handlers : List HandlerDescriptor
deriving DecidableEq, Repr

/-- `read_configuration(project_name)` from the source, with the settings
singleton made explicit. -/
def read_configuration (cfg : LogConfigS) (project_name : String) : LoggingConfig :=
  { name := project_name,
    handlers :=
      [⟨"RotatingFileHandler", some 100000000, some 5, cfg.ENABLE_FILE_LOG⟩,
       ⟨"StreamHandler", none, none, cfg.ENABLE_CONSOLE_LOG⟩] }

/-- an attached sink on the root logger. -/
inductive HandlerInstance where
  | rotatingFile (log_file : String) (maxBytes backupCount : Nat)
  | stream
deriving DecidableEq, Repr

/-- the slice of process-wide `logging` state the code mutates: the root
level and handlers, and each named logger level (`none` = never set). -/
structure LoggingState where
  root_level : String
  root_handlers : List HandlerInstance
  module_levels : List (String × String)
deriving Repr

/-- store a (logger name, level) pair, replacing any existing entry. -/
def assocSet : List (String × String) → String → String → List (String × String)
  | [], n, l => [(n, l)]
  | (n₀, l₀) :: rest, n, l =>
      if n₀ = n then (n, l) :: rest else (n₀, l₀) :: assocSet rest n l

/-- look a logger name up in the level table. -/
def assocLookup : List (String × String) → String → Option String
  | [], _ => none
  | (n₀, l₀) :: rest, n => if n₀ = n then some l₀ else assocLookup rest n

/-- `logging.getLogger(name).setLevel(lvl)` for a named logger. -/
def setLoggerLevel (st : LoggingState) (name lvl : String) : LoggingState :=
  { st with module_levels := assocSet st.module_levels name lvl }

/-- the level of a named logger, if one was ever set. -/
def getLoggerLevel (st : LoggingState) (name : String) : Option String :=
  assocLookup st.module_levels name

/-- the handler-attachment loop at the end of `configure_logger`: a
rotating file handler when enabled (writing
`LOGS_MODULE_PATH/<project_name>.log`), a stream handler when enabled,
anything else skipped. -/
def attachHandlers (logs_module_path project_name : String) :
    List HandlerDescriptor → List HandlerInstance
  | [] => []
  | h :: rest =>
      if h.type = "RotatingFileHandler" && h.enable then
        HandlerInstance.rotatingFile
            (posixJoin2 logs_module_path (project_name ++ ".log"))
            (h.max_bytes.getD 0) (h.back_up_count.getD 0)
          :: attachHandlers logs_module_path project_name rest
      else if h.type = "StreamHandler" && h.enable then
        HandlerInstance.stream :: attachHandlers logs_module_path project_name rest
      else attachHandlers logs_module_path project_name rest

/-- `configure_logger(project_name)`: reset the root handlers, set the
root level, force every deferred module logger to `DEFER_LOG_LEVEL`
(both lists), then attach the enabled sinks. -/
def configure_logger (cfg : LogConfigS) (logs_module_path project_name : String)
    (st : LoggingState) : LoggingState :=
  let logging_config := read_configuration cfg project_name
  let st := { st with root_level := cfg.LOG_LEVEL, root_handlers := [] }
  let st := cfg.DEFER_LOG_MODULES.foldl
    (fun s m => setLoggerLevel s m cfg.DEFER_LOG_LEVEL) st
  let st := cfg.DEFER_ADDITIONAL_LOGS.foldl
    (fun s m => setLoggerLevel s m cfg.DEFER_LOG_LEVEL) st
  { st with
      root_handlers :=
        attachHandlers logs_module_path project_name logging_config.handlers }

/-! ## Response envelopes (`jetpack/responses.py`)

The ambient execution context carries the optional correlation identifier
(the `asgi_correlation_id` context variable) and the current instant;
`get_correlation_id` wraps the context-variable read in `try/except
LookupError`, so it is total and returns `None` when nothing is set. -/

structure AmbientCtx where
  correlation_id : Option String
  now_iso : String
deriving DecidableEq, Repr

/-- `get_correlation_id()`: the ambient correlation identifier or `None`;
the `LookupError` branch makes absence return `None` rather than raise. -/
def get_correlation_id (ctx : AmbientCtx) : Option String := ctx.correlation_id

/-- `get_current_timestamp()`: the current instant in common ISO form. -/
def get_current_timestamp (ctx : AmbientCtx) : String := ctx.now_iso

structure RequestMeta where
  request_id : Option String
  timestamp : Option String
deriving DecidableEq, Repr

/-- `RequestMeta()` with both defaults: `request_id` from
`get_correlation_id`, `timestamp` from `get_current_timestamp`. -/
def RequestMeta.initDefault (ctx : AmbientCtx) : RequestMeta :=
  ⟨get_correlation_id ctx, some (get_current_timestamp ctx)⟩

/-- an opaque JSON payload for `data`/`error` fields. -/
structure JsonV where
  repr_str : String
deriving DecidableEq, Repr

structure DefaultFailureSchema where
  status : String
  message : String
  data : Option JsonV
  error : Option JsonV
  meta : Option RequestMeta
deriving DecidableEq, Repr

/-- `DefaultFailureSchema(error=..., ...)` built with an error payload and
no explicit `meta`, in the ambient context `ctx`: every other field keeps
its declared default, and `meta` defaults to the literal `None` — no
default factory consults `ctx` for this field. -/
def DefaultFailureSchema.initWithError (ctx : AmbientCtx) (error : Option JsonV) :
    DefaultFailureSchema :=
  let _ := ctx
  { status := "failure"
    message := "Response fetch failed"
    data := none
    error := error
    meta := none }

/-! ## Dictionary lemmas -/

theorem dictGet_dictInsert (d : List (ExcKey × HandlerV)) (k k' : ExcKey) (v : HandlerV) :
    dictGet (dictInsert d k v) k' = if k = k' then some v else dictGet d k' := by
  induction d with
  | nil => simp [dictInsert, dictGet]
  | cons p rest ih =>
      obtain ⟨k₀, v₀⟩ := p
      by_cases h₀ : k₀ = k
      · subst h₀
        simp only [dictInsert, if_pos rfl, dictGet]
        by_cases h' : k₀ = k'
        · subst h'; simp
        · simp [h']
      · simp only [dictInsert, if_neg h₀, dictGet]
        by_cases h' : k₀ = k'
        · subst h'
          have : k ≠ k₀ := fun h => h₀ h.symm
          simp [this]
        · simp [h', ih]

theorem dictGet_dictUpdate (entries d : List (ExcKey × HandlerV)) (k : ExcKey) :
    dictGet (dictUpdate d entries) k =
      match lastBinding entries k with
      | some v => some v
      | none => dictGet d k := by
  induction entries generalizing d with
  | nil => simp [dictUpdate, lastBinding]
  | cons p rest ih =>
      obtain ⟨k₀, v₀⟩ := p
      have hstep : dictUpdate d ((k₀, v₀) :: rest) = dictUpdate (dictInsert d k₀ v₀) rest := rfl
      rw [hstep, ih]
      cases hlb : lastBinding rest k with
      | some v => simp [lastBinding, hlb]
      | none =>
          simp only [lastBinding, hlb, dictGet_dictInsert]
          by_cases h₀ : k₀ = k <;> simp [h₀]

theorem dictGet_foldl_generated (l : List ExcKey) (d : List (ExcKey × HandlerV)) (k : ExcKey) :
    dictGet (l.foldl (fun acc k' => dictInsert acc k' (HandlerV.generated k')) d) k =
      if k ∈ l then some (HandlerV.generated k) else dictGet d k := by
  induction l generalizing d with
  | nil => simp
  | cons c cs ih =>
      simp only [List.foldl_cons, ih, dictGet_dictInsert, List.mem_cons]
      by_cases hcs : k ∈ cs
      · simp [hcs]
      · by_cases hc : c = k
        · subst hc; simp [hcs]
        · have : ¬ k = c := fun h => hc h.symm
          simp [hcs, this, hc]

/-! ## Claims about the handler registry -/

/-- C1: the claim says `get_exception_handlers` returns the assembled
mapping, containing at least the validation entry and the generic
`Exception` entry.  The function body does assemble exactly that table,
but the function has no `return` statement, so every call — the
all-defaults call in particular — returns `None` instead of the table.
The table itself (the body through line 55) does contain both entries. -/
theorem C1_get_exception_handlers_returns_none :
    (∀ el cv eh, get_exception_handlers el cv eh = none)
    ∧ dictGet (assemble_handlers none none none) ExcKey.requestValidationError
        = some HandlerV.requestValidationDefault
    ∧ dictGet (assemble_handlers none none none) ExcKey.exception
        = some HandlerV.genericDefault :=
  ⟨fun _ _ _ => rfl, rfl, rfl⟩

/-- C5 counterexample: with `exceptions_list = [other 0]` and
`exception_handlers = {other 0 ↦ custom 7}`, the assembled table maps
`other 0` to the generated handler, not to the caller's handler — the
caller-supplied mapping is applied before the `exceptions_list` loop and
is therefore not the highest-precedence source. -/
theorem C5_counterexample :
    dictGet
        (assemble_handlers (some [ExcKey.other 0]) none
          (some [(ExcKey.other 0, HandlerV.custom 7)]))
        (ExcKey.other 0)
      = some (HandlerV.generated (ExcKey.other 0))
    ∧ HandlerV.generated (ExcKey.other 0) ≠ HandlerV.custom 7 := by
  constructor
  · rfl
  · decide

/-- C5 amended: the caller-supplied `exception_handlers` mapping is merged
after the built-in defaults but before the `exceptions_list` loop; so for
every type `T` it contains that does not also appear in
`exceptions_list`, the final table maps `T` to the caller's handler (its
last binding for `T`), overriding any built-in default for that key. -/
theorem C5_override_before_generated (el : List ExcKey) (cv : Option HandlerV)
    (eh : List (ExcKey × HandlerV)) (T : ExcKey) (h : HandlerV)
    (hbind : lastBinding eh T = some h) (hnotin : T ∉ el) :
    dictGet (assemble_handlers (some el) cv (some eh)) T = some h := by
  unfold assemble_handlers
  simp only [Option.getD_some]
  by_cases hel : el.isEmpty = true
  · rw [if_pos hel, dictGet_dictUpdate, hbind]
  · rw [if_neg hel, dictGet_foldl_generated, if_neg hnotin, dictGet_dictUpdate, hbind]

/-- witness for C5's amended theorem at a concrete input. -/
theorem C5_override_before_generated_witness :
    lastBinding [(ExcKey.other 0, HandlerV.custom 7)] (ExcKey.other 0)
        = some (HandlerV.custom 7)
    ∧ ExcKey.other 0 ∉ [ExcKey.other 1]
    ∧ dictGet
        (assemble_handlers (some [ExcKey.other 1]) none
          (some [(ExcKey.other 0, HandlerV.custom 7)]))
        (ExcKey.other 0)
      = some (HandlerV.custom 7) :=
  ⟨by decide, by decide,
    C5_override_before_generated [ExcKey.other 1] none
      [(ExcKey.other 0, HandlerV.custom 7)] (ExcKey.other 0) (HandlerV.custom 7)
      (by decide) (by decide)⟩

/-- C8: the generated handler closes over the exception type; on any
instance it logs at error severity a line carrying the type's name
(`f"{exception.__name__}: {exc}"`), and returns a response whose HTTP
status code is the instance's `status_code` and whose message content is
the instance's rendered `message` property. -/
theorem C8_generated_handler (excTypeName : String) (req : Unit) (exc : GenericErrors) :
    (exception_handler_generator excTypeName req exc).1
        = ⟨LogSeverity.error, excTypeName ++ ": " ++ strOfExc exc⟩
    ∧ (exception_handler_generator excTypeName req exc).2.status_code = exc.status_code
    ∧ (exception_handler_generator excTypeName req exc).2.content_message = exc.message :=
  ⟨rfl, rfl, rfl⟩

/-! ## Claims about the error model -/

/-- C2: the constructor stores `message` verbatim when `ec` is `None` or
the empty string and `"<code>: <message>"` otherwise (the spec-side rule
`specRendered`); the prefix is applied exactly once — the stored message
is never the doubly-prefixed string — and reading the property leaves the
instance unchanged, so repeated reads return the same string. -/
theorem C2_constructor_rendering (ec : Option String) (msg : String) (sc : Int) :
    (GenericErrors.init msg ec sc).message = specRendered ec msg
    ∧ ((GenericErrors.init msg ec sc).readMessage.2).readMessage
        = (GenericErrors.init msg ec sc).readMessage
    ∧ ∀ s, ec = some s → s ≠ "" →
        (GenericErrors.init msg ec sc).message ≠ s ++ ": " ++ (s ++ ": " ++ msg) := by
  have hmsg : ∀ s : String, s ≠ "" →
      (GenericErrors.init msg (some s) sc).message = s ++ ": " ++ msg := by
    intro s hs
    have hne : s.isEmpty = false := by
      cases h : s.isEmpty
      · rfl
      · exact absurd ((String.isEmpty_iff s).mp h) hs
    simp [GenericErrors.init, GenericErrors.message, hne]
  refine ⟨?_, rfl, ?_⟩
  · cases ec with
    | none => rfl
    | some s =>
        by_cases hs : s = ""
        · subst hs
          have he : ("" : String).isEmpty = true := rfl
          simp [GenericErrors.init, GenericErrors.message, specRendered, he]
        · rw [hmsg s hs]
          simp [specRendered, hs]
  · intro s hec hs habs
    subst hec
    rw [hmsg s hs] at habs
    have hlen := congrArg String.length habs
    simp only [String.length_append] at hlen
    have h2 : (": ").length = 2 := by decide
    rw [h2] at hlen
    omega

/-- witness for C2 at the concrete pair of the spec's scenario. -/
theorem C2_constructor_rendering_witness :
    (GenericErrors.init "Test error" (some "ERR001") 500).message
        = specRendered (some "ERR001") "Test error"
    ∧ (GenericErrors.init "Test error" (some "ERR001") 500).message
        ≠ "ERR001" ++ ": " ++ ("ERR001" ++ ": " ++ "Test error") :=
  ⟨(C2_constructor_rendering (some "ERR001") "Test error" 500).1,
    (C2_constructor_rendering (some "ERR001") "Test error" 500).2.2 "ERR001" rfl
      (by decide)⟩

/-- C4 counterexample: on an instance constructed without a code, setting
`ec` to the non-empty string `"MOD_001"` leaves the `message` property at
the construction-time rendering, without the code prefix — the `ec`
setter assigns `_ec` only and never recomputes `_message` (the repository
test suite asserts exactly this behaviour for setter mutation). -/
theorem C4_counterexample :
    (GenericErrors.initDefault.setEc (some "MOD_001")).ec = some "MOD_001"
    ∧ (GenericErrors.initDefault.setEc (some "MOD_001")).message
        = "An error has occurred. Please contact support."
    ∧ (GenericErrors.initDefault.setEc (some "MOD_001")).message
        ≠ "MOD_001" ++ ": " ++ "An error has occurred. Please contact support." :=
  ⟨rfl, rfl, by decide⟩

/-- C4 amended: the setters mutate their own backing fields only.  The
`ec` setter changes the stored code and leaves the `message` property
unchanged (so the rendering is not recomputed and can go stale with
respect to the code); the `message` setter stores its argument verbatim
without re-rendering; the `status_code` setter is independent of both. -/
theorem C4_setters_do_not_rerender (e : GenericErrors) (c : Option String)
    (m : String) (sc : Int) :
    (e.setEc c).ec = c
    ∧ (e.setEc c).message = e.message
    ∧ (e.setMessage m).message = m
    ∧ (e.setMessage m).ec = e.ec
    ∧ (e.setStatusCode sc).status_code = sc
    ∧ (e.setStatusCode sc).message = e.message :=
  ⟨rfl, rfl, rfl, rfl, rfl, rfl⟩

/-! ## Path lemmas -/

theorem splitSlash_ne_nil (l : List Char) : splitSlash l ≠ [] := by
  induction l with
  | nil => simp [splitSlash]
  | cons c cs ih =>
      by_cases hc : c = '/'
      · simp [splitSlash, hc]
      · simp only [splitSlash, if_neg hc]
        cases h : splitSlash cs with
        | nil => simp
        | cons w ws => simp

theorem splitSlash_append_slash (l : List Char) :
    splitSlash (l ++ ['/']) = splitSlash l ++ [[]] := by
  induction l with
  | nil => simp [splitSlash]
  | cons d ds ih =>
      by_cases hd : d = '/'
      · subst hd
        simp [splitSlash, ih]
      · cases h : splitSlash ds with
        | nil => exact absurd h (splitSlash_ne_nil ds)
        | cons w ws =>
            simp only [List.cons_append, splitSlash, if_neg hd, List.append_eq, ih, h]

theorem splitSlash_concat (c : Char) (hc : ¬ c = '/') (l : List Char) :
    ∃ ws w, splitSlash l = ws ++ [w] ∧ splitSlash (l ++ [c]) = ws ++ [w ++ [c]] := by
  induction l with
  | nil =>
      refine ⟨[], [], rfl, ?_⟩
      simp [splitSlash, hc]
  | cons d ds ih =>
      obtain ⟨ws, w, h1, h2⟩ := ih
      by_cases hd : d = '/'
      · subst hd
        refine ⟨[] :: ws, w, ?_, ?_⟩
        · simp [splitSlash, h1]
        · simp [splitSlash, h2]
      · cases ws with
        | nil =>
            refine ⟨[], d :: w, ?_, ?_⟩
            · simp [splitSlash, if_neg hd, h1]
            · simp [splitSlash, if_neg hd, h2]
        | cons u us =>
            refine ⟨(d :: u) :: us, w, ?_, ?_⟩
            · simp [splitSlash, if_neg hd, h1]
            · simp [splitSlash, if_neg hd, h2]

theorem joinComps_getLast (w : List Char) (hw : w ≠ []) (ws : List (List Char)) :
    (joinComps (ws ++ [w])).getLast? = w.getLast? := by
  induction ws with
  | nil => rfl
  | cons u us ih =>
      cases h : us ++ [w] with
      | nil => exact absurd h (by simp)
      | cons r rs =>
          have hstep : joinComps ((u :: us) ++ [w]) = u ++ '/' :: joinComps (us ++ [w]) := by
            simp only [List.cons_append, h, joinComps]
          rw [hstep]
          have hJ : (joinComps (us ++ [w])).getLast? = w.getLast? := ih
          have hwlast : ∃ a, w.getLast? = some a := by
            cases hw' : w.getLast? with
            | none => exact absurd (List.getLast?_eq_none_iff.mp hw') hw
            | some a => exact ⟨a, rfl⟩
          obtain ⟨a, ha⟩ := hwlast
          have hJne : joinComps (us ++ [w]) ≠ [] := by
            intro hnil
            rw [hnil] at hJ
            rw [ha] at hJ
            exact Option.noConfusion hJ
          have h1 : (u ++ '/' :: joinComps (us ++ [w])).getLast?
              = ('/' :: joinComps (us ++ [w])).getLast? :=
            List.getLast?_append_of_ne_nil _ (by simp)
          have h2 : ('/' :: joinComps (us ++ [w])).getLast?
              = (joinComps (us ++ [w])).getLast? := by
            have : '/' :: joinComps (us ++ [w]) = ['/'] ++ joinComps (us ++ [w]) := rfl
            rw [this]
            exact List.getLast?_append_of_ne_nil _ hJne
          rw [h1, h2, hJ]

theorem rootOf_append (l m : List Char) (h : 3 ≤ l.length) :
    rootOf (l ++ m) = rootOf l := by
  unfold rootOf
  rw [List.take_append_of_le_length (by omega), List.take_append_of_le_length (by omega),
    List.take_append_of_le_length (by omega)]

theorem normChars_append_slash (l : List Char) (h : 3 ≤ l.length) :
    normChars (l ++ ['/']) = normChars l := by
  unfold normChars
  rw [splitSlash_append_slash, List.filter_append, rootOf_append l ['/'] h]
  have hf : List.filter keepComp [([] : List Char)] = [] := rfl
  rw [hf, List.append_nil]

theorem normChars_concat_getLast (l : List Char) (c : Char) (hc : c ≠ '/') (hd : c ≠ '.') :
    (normChars (l ++ [c])).getLast? = some c := by
  obtain ⟨ws, w, h1, h2⟩ := splitSlash_concat c hc l
  have hkeep : keepComp (w ++ [c]) = true := by
    have h3 : w ++ [c] ≠ [] := by simp
    have h4 : w ++ [c] ≠ ['.'] := by
      intro habs
      cases w with
      | nil =>
          simp only [List.nil_append, List.cons.injEq] at habs
          exact hd habs.1
      | cons a as => simp at habs
    simp [keepComp, h3, h4]
  have hcomps : (splitSlash (l ++ [c])).filter keepComp
      = (ws.filter keepComp) ++ [w ++ [c]] := by
    rw [h2, List.filter_append]
    simp [hkeep]
  have hbody : (joinComps ((splitSlash (l ++ [c])).filter keepComp)).getLast? = some c := by
    rw [hcomps, joinComps_getLast (w ++ [c]) (by simp) (ws.filter keepComp)]
    exact List.getLast?_concat _
  have hbne : joinComps ((splitSlash (l ++ [c])).filter keepComp) ≠ [] := by
    intro hnil
    rw [hnil] at hbody
    exact Option.noConfusion hbody
  unfold normChars
  rw [if_neg hbne]
  rw [List.getLast?_append_of_ne_nil _ hbne, hbody]

/-! ## Claims about the path resolver -/

/-- C3: `path_merger` derives the logs path as
`join(base_path, "logs", module_name with hyphens replaced)`, and the
spec's scenario holds both for the merged string and for the final
`LOGS_MODULE_PATH` field after `pathlib.Path` coercion. -/
theorem C3_logs_path_derivation (base mod : String) :
    path_merger base mod = posixJoin3 base "logs" (pyReplaceDash mod)
    ∧ path_merger "/tmp/test" "my-service" = "/tmp/test/logs/my_service"
    ∧ logsModulePath "/tmp/test" "my-service" = "/tmp/test/logs/my_service" :=
  ⟨rfl, by decide, by decide⟩

/-- C6: with an empty module name the final `LOGS_MODULE_PATH` field equals
the path `join(base_path, "logs")`: `os.path.join` leaves a trailing
separator (`<base>/logs/`), but the `pathlib.Path` coercion normalises it
away, so the field ends in the `logs` segment with no trailing separator,
for every base path; the default and `/tmp/test` scenarios are spelled
out. -/
theorem C6_empty_module_name (base : String) :
    logsModulePath base "" = posixNormalize (posixJoin2 base "logs")
    ∧ endsWithSlash (logsModulePath base "") = false
    ∧ logsModulePath "code/data" "" = "code/data/logs"
    ∧ logsModulePath "/tmp/test" "" = "/tmp/test/logs" := by
  have hx : ∃ y, posixJoin2 base "logs" = y ++ "logs" := by
    unfold posixJoin2
    have hsw : startsWithSlash "logs" = false := rfl
    rw [hsw]
    by_cases hb : (base = "" || endsWithSlash base) = true
    · simp only [Bool.false_eq_true, if_false, hb, if_true]
      exact ⟨base, rfl⟩
    · simp only [Bool.false_eq_true, if_false, hb]
      exact ⟨base ++ "/", rfl⟩
  obtain ⟨y, hy⟩ := hx
  have hdata : (posixJoin2 base "logs").data = (y.data ++ ['l', 'o', 'g']) ++ ['s'] := by
    rw [hy, String.data_append]
    simp
  have hlen : 3 ≤ (posixJoin2 base "logs").data.length := by
    rw [hdata]
    simp
  have hne : posixJoin2 base "logs" ≠ "" := by
    intro habs
    have h0 : ("" : String).data = [] := rfl
    rw [habs, h0] at hdata
    simp at hdata
  have hends : endsWithSlash (posixJoin2 base "logs") = false := by
    unfold endsWithSlash
    rw [hdata, List.getLast?_concat]
    rfl
  have hjoin : posixJoin3 base "logs" "" = posixJoin2 base "logs" ++ "/" := by
    unfold posixJoin3
    generalize hxg : posixJoin2 base "logs" = x at hne hends
    unfold posixJoin2
    have hsw : startsWithSlash "" = false := rfl
    rw [hsw]
    have hcond : (x = "" || endsWithSlash x) = false := by
      rw [hends]
      simp [hne]
    rw [hcond]
    simp
  have hmain : logsModulePath base "" = posixNormalize (posixJoin2 base "logs") := by
    unfold logsModulePath path_merger
    have hrep : pyReplaceDash "" = "" := rfl
    rw [hrep, hjoin]
    unfold posixNormalize
    rw [String.data_append]
    have hslash : ("/" : String).data = ['/'] := rfl
    rw [hslash, normChars_append_slash _ hlen]
  refine ⟨hmain, ?_, by decide, by decide⟩
  rw [hmain]
  unfold endsWithSlash posixNormalize
  have : (String.mk (normChars (posixJoin2 base "logs").data)).data
      = normChars (posixJoin2 base "logs").data := rfl
  rw [this, hdata, normChars_concat_getLast _ _ (by decide) (by decide)]
  rfl

/-! ## Logging lemmas -/

theorem assocLookup_assocSet (d : List (String × String)) (n l n' : String) :
    assocLookup (assocSet d n l) n' = if n = n' then some l else assocLookup d n' := by
  induction d with
  | nil => simp [assocSet, assocLookup]
  | cons p rest ih =>
      obtain ⟨n₀, l₀⟩ := p
      by_cases h₀ : n₀ = n
      · subst h₀
        simp only [assocSet, if_pos rfl, assocLookup]
        by_cases h' : n₀ = n'
        · subst h'; simp
        · simp [h']
      · simp only [assocSet, if_neg h₀, assocLookup]
        by_cases h' : n₀ = n'
        · subst h'
          have : n ≠ n₀ := fun h => h₀ h.symm
          simp [this]
        · simp [h', ih]

theorem assocLookup_foldl_assocSet (names : List String) (d : List (String × String))
    (lvl n : String) :
    assocLookup (names.foldl (fun acc m => assocSet acc m lvl) d) n =
      if n ∈ names then some lvl else assocLookup d n := by
  induction names generalizing d with
  | nil => simp
  | cons m ms ih =>
      simp only [List.foldl_cons, ih, assocLookup_assocSet, List.mem_cons]
      by_cases hms : n ∈ ms
      · simp [hms]
      · by_cases hm : m = n
        · subst hm; simp [hms]
        · have : ¬ n = m := fun h => hm h.symm
          simp [hms, this, hm]

theorem module_levels_foldl (names : List String) (lvl : String) (st : LoggingState) :
    (names.foldl (fun s m => setLoggerLevel s m lvl) st).module_levels =
      names.foldl (fun d m => assocSet d m lvl) st.module_levels := by
  induction names generalizing st with
  | nil => rfl
  | cons m ms ih =>
      rw [List.foldl_cons, List.foldl_cons, ih]
      rfl

theorem configure_logger_module_levels (cfg : LogConfigS) (lp pn : String)
    (st : LoggingState) :
    (configure_logger cfg lp pn st).module_levels =
      (cfg.DEFER_LOG_MODULES ++ cfg.DEFER_ADDITIONAL_LOGS).foldl
        (fun d m => assocSet d m cfg.DEFER_LOG_LEVEL) st.module_levels := by
  unfold configure_logger
  simp only [List.foldl_append, module_levels_foldl]

/-! ## Claims about the logging assembler -/

/-- C9: after `configure_logger` runs, every name in the deferred-modules
list and the additional-deferred list carries exactly the configured
deferred level, and running the configuration twice with the same
settings leaves each such logger at exactly that level. -/
theorem C9_deferred_module_levels (cfg : LogConfigS) (lp pn : String)
    (st : LoggingState) (name : String)
    (h : name ∈ cfg.DEFER_LOG_MODULES ++ cfg.DEFER_ADDITIONAL_LOGS) :
    getLoggerLevel (configure_logger cfg lp pn st) name = some cfg.DEFER_LOG_LEVEL
    ∧ getLoggerLevel (configure_logger cfg lp pn (configure_logger cfg lp pn st)) name
        = some cfg.DEFER_LOG_LEVEL := by
  have key : ∀ s : LoggingState,
      getLoggerLevel (configure_logger cfg lp pn s) name = some cfg.DEFER_LOG_LEVEL := by
    intro s
    unfold getLoggerLevel
    rw [configure_logger_module_levels, assocLookup_foldl_assocSet, if_pos h]
  exact ⟨key st, key (configure_logger cfg lp pn st)⟩

/-- witness for C9 at the default settings, the name `httpx`, and a fresh
logging state. -/
theorem C9_deferred_module_levels_witness :
    "httpx" ∈ (["httpx", "pymongo"] : List String) ++ ([] : List String)
    ∧ getLoggerLevel
        (configure_logger
          ⟨"INFO", false, true, false, ["httpx", "pymongo"], [], "INFO"⟩
          "code/data/logs" "" ⟨"WARNING", [], []⟩)
        "httpx" = some "INFO" :=
  ⟨by decide,
    (C9_deferred_module_levels
      ⟨"INFO", false, true, false, ["httpx", "pymongo"], [], "INFO"⟩
      "code/data/logs" "" ⟨"WARNING", [], []⟩ "httpx" (by decide)).1⟩

/-- C10: `read_configuration` always yields exactly two sink descriptors,
the rotating-file one first with byte cap `100000000` and backup count
`5`, then the stream one; the enable flags mirror `ENABLE_FILE_LOG` and
`ENABLE_CONSOLE_LOG`, and the cap and count are the same literals for
every configuration and project name. -/
theorem C10_read_configuration_shape (cfg : LogConfigS) (project_name : String) :
    (read_configuration cfg project_name).handlers =
      [⟨"RotatingFileHandler", some 100000000, some 5, cfg.ENABLE_FILE_LOG⟩,
       ⟨"StreamHandler", none, none, cfg.ENABLE_CONSOLE_LOG⟩]
    ∧ (read_configuration cfg project_name).handlers.length = 2
    ∧ (read_configuration cfg project_name).handlers.map HandlerDescriptor.max_bytes
        = [some 100000000, none]
    ∧ (read_configuration cfg project_name).handlers.map HandlerDescriptor.back_up_count
        = [some 5, none]
    ∧ (read_configuration cfg project_name).handlers.map HandlerDescriptor.enable
        = [cfg.ENABLE_FILE_LOG, cfg.ENABLE_CONSOLE_LOG] :=
  ⟨rfl, rfl, rfl, rfl, rfl⟩

/-! ## Claims about the response envelopes -/

/-- C7 counterexample: a failure envelope built with an error payload and
no explicit `meta`, in a context whose ambient correlation identifier is
`req-12345`, has `meta = none` — not a `meta` whose `request_id` equals
the ambient identifier (the repository tests assert `meta is None` for
exactly this construction). -/
theorem C7_counterexample :
    (DefaultFailureSchema.initWithError ⟨some "req-12345", "2023-12-25T10:30:00Z"⟩
        (some ⟨"VAL_001"⟩)).meta = none
    ∧ get_correlation_id ⟨some "req-12345", "2023-12-25T10:30:00Z"⟩ = some "req-12345" :=
  ⟨rfl, rfl⟩

/-- C7 amended: a failure envelope built with an error payload and no
explicit `meta` has `status = "failure"`, carries the payload, and has
`meta = none`; the ambient-correlation default belongs to `RequestMeta`
itself, whose default `request_id` equals the ambient correlation
identifier, or is null when none is set — absence never raises, since the
lookup is total. -/
theorem C7_failure_envelope (ctx : AmbientCtx) (err : Option JsonV) :
    (DefaultFailureSchema.initWithError ctx err).status = "failure"
    ∧ (DefaultFailureSchema.initWithError ctx err).error = err
    ∧ (DefaultFailureSchema.initWithError ctx err).meta = none
    ∧ (RequestMeta.initDefault ctx).request_id = get_correlation_id ctx
    ∧ (RequestMeta.initDefault ctx).request_id = ctx.correlation_id :=
  ⟨rfl, rfl, rfl, rfl, rfl⟩

end Jetpack
